import Mathlib

/-!
Shallow embedding of the vector-shape construction engine of
manim/mobject/geometry.py (TipableVMobject, Arc, ArcBetweenPoints, Line,
Arrow, ArrowTip) over exact real arithmetic.

Conventions used throughout this development:

* Points are triples of reals, as the numpy 3-vectors of the source.
* Methods of the base drawable-shape collaborator (Mobject / VMobject
  and utils.space_ops), which are part of this repository but outside
  the embedded geometry file, are modelled from the spec; each such
  definition carries a doc comment beginning with the words
  "Modelled from the spec".
* Raising an exception is modelled with Except or with explicit flags,
  exactly where the source raises or catches.
* Curve bodies are represented at the granularity the claims need: a
  straight Line by its two anchors, a TipableVMobject by its two anchors
  and its two terminal handles (points[1] and points[-2] of the source),
  together with the tip attributes and the list of tip children.
-/

open scoped Classical

noncomputable section

/-- A point in 3-space, mirroring the numpy 3-vectors of the source. -/
@[ext]
structure Pt where
  x : ℝ
  y : ℝ
  z : ℝ

instance : Add Pt := ⟨fun p q => ⟨p.x + q.x, p.y + q.y, p.z + q.z⟩⟩

instance : Sub Pt := ⟨fun p q => ⟨p.x - q.x, p.y - q.y, p.z - q.z⟩⟩

instance : Neg Pt := ⟨fun p => ⟨-p.x, -p.y, -p.z⟩⟩

instance : SMul ℝ Pt := ⟨fun k p => ⟨k * p.x, k * p.y, k * p.z⟩⟩

/-- The constant ORIGIN of manim.constants. -/
def ORIGIN : Pt := ⟨0, 0, 0⟩

/-- The constant DEFAULT_ARROW_TIP_LENGTH of the source file. -/
def DEFAULT_ARROW_TIP_LENGTH : ℝ := 0.35

/-- Modelled from the spec: utils.space_ops.get_norm (not under src/),
the Euclidean norm of a 3-vector. -/
def get_norm (p : Pt) : ℝ := Real.sqrt (p.x ^ 2 + p.y ^ 2 + p.z ^ 2)

/-- Modelled from the spec: utils.space_ops.normalize (not under src/):
the vector divided by its norm when the norm is positive, else the zero
vector. -/
def normalize_vec (p : Pt) : Pt :=
  if 0 < get_norm p then (1 / get_norm p) • p else ORIGIN

/-! ### Straight Line model (Line.generate_points, account_for_buff,
set_length; claims C4 and C9)

The Line defaults are buff = 0 and path_arc = None.  With path_arc = None
the body is the two-corner straight path [start, end], and in
account_for_buff the Python test `self.path_arc == 0` is False (None is
not 0), so the length is taken from get_arc_length, which on a straight
segment equals the chord length.  The embedding below covers exactly
these straight Lines. -/

/-- A straight Line body: its two anchors and its buff configuration. -/
structure LineS where
  start_pt : Pt
  end_pt : Pt
  buff : ℝ

/-- TipableVMobject.get_length specialised to a bare straight Line:
the norm of start minus end (src lines 195-197). -/
def LineS.get_length (L : LineS) : ℝ := get_norm (L.start_pt - L.end_pt)

/-- Modelled from the spec: VMobject.get_arc_length (not under src/), the
arc-length measure of the realized path; for a straight two-anchor
segment it equals the chord length. -/
def LineS.get_arc_length (L : LineS) : ℝ := get_norm (L.start_pt - L.end_pt)

/-- Linear interpolation between two points. -/
def interp (a b : Pt) (t : ℝ) : Pt := a + t • (b - a)

/-- Modelled from the spec: VMobject.pointwise_become_partial (not under
src/) applied to a straight segment: the path is replaced by its portion
between proportions a and b, so the anchors move to the corresponding
interpolated points. -/
def LineS.sub_segment (L : LineS) (a b : ℝ) : LineS :=
  { L with
      start_pt := interp L.start_pt L.end_pt a
      end_pt := interp L.start_pt L.end_pt b }

/-- Line.account_for_buff (src lines 476-489) for a straight Line
(path_arc = None): return unchanged when buff is 0; otherwise take the
arc length (the Python comparison `None == 0` is False, so the
get_arc_length branch runs); return unchanged when length < 2 * buff;
otherwise trim proportion buff / length from each end. -/
def LineS.account_for_buff (L : LineS) : LineS :=
  if L.buff = 0 then L
  else
    if L.get_arc_length < 2 * L.buff then L
    else L.sub_segment (L.buff / L.get_arc_length) (1 - L.buff / L.get_arc_length)

/-- Line construction for a straight line (src lines 460-470):
generate_points sets the two corners and then runs account_for_buff. -/
def mkLine (s e : Pt) (buff : ℝ) : LineS :=
  LineS.account_for_buff ⟨s, e, buff⟩

/-- Modelled from the spec: Mobject.scale (not under src/): a uniform
scaling of the points about the center of the bounding box, which for a
straight segment is the midpoint of its two anchors. -/
def LineS.scale (L : LineS) (factor : ℝ) : LineS :=
  let c : Pt := (1 / 2 : ℝ) • (L.start_pt + L.end_pt)
  { L with
      start_pt := c + factor • (L.start_pt - c)
      end_pt := c + factor • (L.end_pt - c) }

/-- Line.set_length (src lines 539-540): scale by length divided by the
current length.  This real-arithmetic embedding is meaningful for a
nonzero current length; the zero-length behaviour is refined by the
IEEE model below (claim about division by zero). -/
def LineS.set_length (L : LineS) (len : ℝ) : LineS :=
  L.scale (len / L.get_length)

/-! ### IEEE refinement of set_length at zero length (claim C7)

Line.set_length has no guard: it evaluates `length / self.get_length()`
directly.  get_norm returns a numpy float64, so dividing a positive
float by zero yields +inf (with a runtime warning, not an exception),
and scale then multiplies the zero offsets of the degenerate line by
that infinity, producing NaN.  The minimal IEEE-754 double model below
covers exactly the operations reached on that path. -/

/-- Modelled from the spec: an IEEE-754 double as numpy computes with
(finite value, signed infinity, or NaN).  Only the operation cases
reached by the zero-length set_length path are distinguished; unreached
combinations are collapsed to NaN. -/
inductive FloatV
  | fin (v : ℝ)
  | inf
  | ninf
  | nan

/-- Modelled from the spec: IEEE division as numpy float64 performs it.
Division of a nonzero finite value by zero gives a signed infinity, of
zero by zero gives NaN; no exception is raised. -/
def FloatV.div : FloatV → FloatV → FloatV
  | .fin a, .fin b =>
      if b = 0 then (if a = 0 then .nan else if 0 < a then .inf else .ninf)
      else .fin (a / b)
  | _, _ => .nan

/-- Modelled from the spec: IEEE multiplication for the reached cases;
an infinity times zero is NaN. -/
def FloatV.mul : FloatV → FloatV → FloatV
  | .fin a, .fin b => .fin (a * b)
  | .inf, .fin b => if b = 0 then .nan else if 0 < b then .inf else .ninf
  | .fin a, .inf => if a = 0 then .nan else if 0 < a then .inf else .ninf
  | _, _ => .nan

/-- Modelled from the spec: IEEE addition for the reached cases; any
operation with NaN gives NaN. -/
def FloatV.add : FloatV → FloatV → FloatV
  | .fin a, .fin b => .fin (a + b)
  | _, _ => .nan

/-- The scale factor computed by Line.set_length (src lines 539-540),
`length / self.get_length()`, under the IEEE semantics of the numpy
floats involved. -/
def set_length_scale_factor (target current : ℝ) : FloatV :=
  FloatV.div (.fin target) (.fin current)

/-- Modelled from the spec: one coordinate of Mobject.scale about center
c: the point coordinate p is mapped to c + factor * (p - c), computed in
IEEE arithmetic. -/
def scaled_coord (c p : ℝ) (factor : FloatV) : FloatV :=
  FloatV.add (.fin c) (FloatV.mul factor (.fin (p - c)))

/-! ### TipableVMobject model (claims C2, C3, C6, C8)

The body is kept as its two anchors plus the two terminal handles
(points[1] and points[-2]).  A Tip records its configured length
attribute (ArrowTip.length) and its realized geometry: the apex
(points[0], returned by both get_start and get_tip_point of the tip) and
the base (point_from_proportion(0.5)). -/

/-- An ArrowTip: its length attribute and its realized apex and base. -/
structure Tip where
  len : ℝ
  apex : Pt
  base : Pt

/-- A TipableVMobject state: body anchors and terminal handles, the tip
and start_tip attributes (none models the attribute never having been
assigned), the list of tip children (submobjects), and the configured
tip_length together with the Arrow field max_tip_length_to_length_ratio
(here named tipRatioMax). -/
structure TV where
  start_pt : Pt
  end_pt : Pt
  first_handle : Pt
  last_handle : Pt
  tip : Option Tip
  start_tip : Option Tip
  children : List Tip
  tip_length : ℝ
  tipRatioMax : ℝ

/-- TipableVMobject.has_tip (src lines 133-134): the tip attribute is
set and that tip is among the children. -/
def TV.has_tip (s : TV) : Prop := ∃ t, s.tip = some t ∧ t ∈ s.children

/-- TipableVMobject.has_start_tip (src lines 136-137). -/
def TV.has_start_tip (s : TV) : Prop :=
  ∃ t, s.start_tip = some t ∧ t ∈ s.children

/-- TipableVMobject.get_start (src lines 189-193): the apex of the
start tip when one is attached, else the first anchor (the tip apex is
tip.get_start(), the first point of the tip, placed exactly on the
former anchor by position_tip). -/
def TV.get_start (s : TV) : Pt :=
  match s.start_tip with
  | some t => if t ∈ s.children then t.apex else s.start_pt
  | none => s.start_pt

/-- TipableVMobject.get_end (src lines 183-187). -/
def TV.get_end (s : TV) : Pt :=
  match s.tip with
  | some t => if t ∈ s.children then t.apex else s.end_pt
  | none => s.end_pt

/-- Modelled from the spec: Mobject.get_start_and_end (not under src/),
the pair of the two logical endpoints. -/
def TV.get_start_and_end (s : TV) : Pt × Pt := (s.get_start, s.get_end)

/-- TipableVMobject.get_length (src lines 195-197): the norm of start
minus end. -/
def TV.get_length (s : TV) : ℝ :=
  get_norm (s.get_start_and_end.1 - s.get_start_and_end.2)

/-- TipableVMobject.get_first_handle (src lines 177-178). -/
def TV.get_first_handle (s : TV) : Pt := s.first_handle

/-- TipableVMobject.get_last_handle (src lines 180-181). -/
def TV.get_last_handle (s : TV) : Pt := s.last_handle

/-- Modelled from the spec: VMobject.put_start_and_end_on (not under
src/): the path is repositioned so that its first and last anchors
become exactly the given points; the interior points are carried along
affinely and are abstracted here. -/
def TV.put_start_and_end_on (s : TV) (a b : Pt) : TV :=
  { s with start_pt := a, end_pt := b }

/-- TipableVMobject.create_tip together with get_unpositioned_tip and
position_tip (src lines 75-108).  The triangle construction, rotation
and shift live in the base collaborator and are modelled from the spec:
the apex of the tip lands exactly on the current endpoint, and the base
sits tip-length along the local tangent direction (toward the terminal
handle) from the apex. -/
def TV.create_tip (s : TV) (tlen : ℝ) (at_start : Bool) : Tip :=
  let anchor := if at_start then s.get_start else s.get_end
  let handle := if at_start then s.get_first_handle else s.get_last_handle
  { len := tlen
    apex := anchor
    base := anchor + tlen • normalize_vec (handle - anchor) }

/-- TipableVMobject.reset_endpoints_based_on_tip (src lines 110-122):
skip when the length is zero, else rewrite the relevant endpoint to the
tip base. -/
def TV.reset_endpoints_based_on_tip (s : TV) (t : Tip) (at_start : Bool) : TV :=
  if s.get_length = 0 then s
  else
    if at_start then s.put_start_and_end_on t.base s.get_end
    else s.put_start_and_end_on s.get_start t.base

/-- TipableVMobject.asign_tip_attr (src lines 124-129): assign the tip
or start_tip attribute, overwriting any previous value. -/
def TV.asign_tip_attr (s : TV) (t : Tip) (at_start : Bool) : TV :=
  if at_start then { s with start_tip := some t } else { s with tip := some t }

/-- Modelled from the spec: Mobject.add (not under src/): append the
child to the list of children (tips freshly created are never already
children, so the append is the whole effect). -/
def TV.add_child (s : TV) (t : Tip) : TV :=
  { s with children := s.children ++ [t] }

/-- Modelled from the spec: Mobject.remove (not under src/): delete the
first child equal to the given one from the children list. -/
def TV.remove_child (s : TV) (t : Tip) : TV :=
  { s with children := s.children.eraseP (fun u => decide (u = t)) }

/-- TipableVMobject.add_tip (src lines 63-73): create the tip, reset the
endpoints onto its base, assign the attribute, and add the tip as a
child.  The dflt argument models the dynamically dispatched
get_default_tip_length used when tip_length is None. -/
def TV.add_tip (dflt : TV → ℝ) (s : TV) (tlen : Option ℝ) (at_start : Bool) : TV :=
  let t := s.create_tip (tlen.getD (dflt s)) at_start
  let s1 := s.reset_endpoints_based_on_tip t at_start
  let s2 := s1.asign_tip_attr t at_start
  s2.add_child t

/-- TipableVMobject.pop_tips (src lines 141-151): read the tip-aware
endpoints first, remove any attached end tip then any attached start
tip from the children (the attributes are left assigned), reposition
the path endpoints onto the previously read points, and return the
removed tips in that order. -/
def TV.pop_tips (s : TV) : TV × List Tip :=
  let a := s.get_start
  let b := s.get_end
  let step1 : TV × List Tip :=
    match s.tip with
    | some t => if s.has_tip then (s.remove_child t, [t]) else (s, [])
    | none => (s, [])
  let step2 : TV × List Tip :=
    match step1.1.start_tip with
    | some t =>
        if step1.1.has_start_tip then (step1.1.remove_child t, step1.2 ++ [t])
        else (step1.1, step1.2)
    | none => (step1.1, step1.2)
  (step2.1.put_start_and_end_on a b, step2.2)

/-- TipableVMobject.get_tips (src lines 153-163): collect the tip and
start_tip attributes when they exist (hasattr), regardless of whether
they are still attached children. -/
def TV.get_tips (s : TV) : List Tip :=
  (match s.tip with
    | some t => [t]
    | none => []) ++
    (match s.start_tip with
      | some t => [t]
      | none => [])

/-- The error raised by TipableVMobject.get_tip when no tip exists. -/
inductive GeomErr
  | tip_not_found

/-- TipableVMobject.get_tip (src lines 165-172): the first element of
get_tips, raising when the collection is empty. -/
def TV.get_tip (s : TV) : Except GeomErr Tip :=
  match s.get_tips with
  | [] => Except.error GeomErr.tip_not_found
  | t :: _ => Except.ok t

/-- TipableVMobject.get_default_tip_length (src lines 174-175): the
configured tip_length. -/
def TV.get_default_tip_length (s : TV) : ℝ := s.tip_length

/-- Arrow.get_default_tip_length (src lines 676-678): the minimum of the
configured tip_length and max_tip_length_to_length_ratio times the
current length. -/
def Arrow.get_default_tip_length (s : TV) : ℝ :=
  min s.tip_length (s.tipRatioMax * s.get_length)

/-- Minimum of four reals. -/
def min4 (a b c d : ℝ) : ℝ := min (min a b) (min c d)

/-- Maximum of four reals. -/
def max4 (a b c d : ℝ) : ℝ := max (max a b) (max c d)

/-- Modelled from the spec: the center of the bounding box of the stored
body points, the about-point Mobject.scale uses by default. -/
def TV.bbox_center (s : TV) : Pt :=
  ⟨(min4 s.start_pt.x s.first_handle.x s.last_handle.x s.end_pt.x
      + max4 s.start_pt.x s.first_handle.x s.last_handle.x s.end_pt.x) / 2,
    (min4 s.start_pt.y s.first_handle.y s.last_handle.y s.end_pt.y
      + max4 s.start_pt.y s.first_handle.y s.last_handle.y s.end_pt.y) / 2,
    (min4 s.start_pt.z s.first_handle.z s.last_handle.z s.end_pt.z
      + max4 s.start_pt.z s.first_handle.z s.last_handle.z s.end_pt.z) / 2⟩

/-- Modelled from the spec: VMobject.scale (not under src/): every body
point p is mapped to c + factor * (p - c) about the bounding-box center
c; tips and attributes are untouched (Arrow.scale detaches tips before
calling it). -/
def TV.scale_points (s : TV) (factor : ℝ) : TV :=
  let c := s.bbox_center
  { s with
      start_pt := c + factor • (s.start_pt - c)
      end_pt := c + factor • (s.end_pt - c)
      first_handle := c + factor • (s.first_handle - c)
      last_handle := c + factor • (s.last_handle - c) }

/-- The copy `old_tips[i].points[:, :] = new_tip.points` of Arrow.scale:
the old tip object receives the geometry of the new tip while keeping
its own length attribute. -/
def copy_pts (dst src : Tip) : Tip := ⟨dst.len, src.apex, src.base⟩

/-- Arrow.scale (src lines 641-666): no-op on zero length; otherwise pop
the tips, scale the bare body, and for each end that had a tip re-add a
tip (its length resolved through Arrow.get_default_tip_length at the new
geometry), copy the new geometry into the old tip object, and swap that
old object back in as the recorded child.  set_stroke_width_from_length
only touches stroke style and is outside the geometric state.  When only
a start tip exists the source would index old_tips[1] out of range;
that unreached branch is left as the unmodified state. -/
def Arrow.scale (s : TV) (factor : ℝ) : TV :=
  if s.get_length = 0 then s
  else
    let pr := if s.has_tip ∨ s.has_start_tip then s.pop_tips else (s, [])
    let s2 := pr.1.scale_points factor
    let s3 :=
      if s.has_tip then
        let sa := TV.add_tip Arrow.get_default_tip_length s2 none false
        match sa.tip, pr.2.head? with
        | some newt, some told =>
            { sa with
                children := sa.children.eraseP (fun u => decide (u = newt))
                  ++ [copy_pts told newt]
                tip := some (copy_pts told newt) }
        | _, _ => sa
      else s2
    if s.has_start_tip then
      let sa := TV.add_tip Arrow.get_default_tip_length s3 none true
      match sa.start_tip, (pr.2.drop 1).head? with
      | some newt, some told =>
          { sa with
              children := sa.children.eraseP (fun u => decide (u = newt))
                ++ [copy_pts told newt]
              start_tip := some (copy_pts told newt) }
      | _, _ => sa
    else s3

/-- The tip length used when Arrow.scale recreates the end tip: inside
Arrow.scale (src lines 641-666) the tips are popped, the body is scaled,
and add_tip is called with tip_length None, which resolves to
Arrow.get_default_tip_length on the popped and scaled state. -/
def Arrow.recreated_tip_len (s : TV) (factor : ℝ) : ℝ :=
  Arrow.get_default_tip_length ((s.pop_tips).1.scale_points factor)

/-! ### ArcBetweenPoints with an explicit radius (claim C1) -/

/-- The exceptions ArcBetweenPoints.__attrs_post_init__ can raise when a
radius is given: the explicit ValueError for a radius smaller than half
the chord, and the Python ZeroDivisionError raised by the span formula
`(radius - arc_height) / radius` when the (absolute) radius is zero,
which the halfdist guard admits exactly when the two points coincide. -/
inductive ABPErr
  | invalid_radius
  | zero_division

/-- The state of a successfully constructed ArcBetweenPoints: its first
and last anchors and the derived angle and radius. -/
structure ABPState where
  start_anchor : Pt
  end_anchor : Pt
  angle : ℝ
  radius : ℝ

/-- ArcBetweenPoints.__attrs_post_init__ with an explicit radius (src
lines 286-304): flip a negative radius to its absolute value with sign
-2, else sign 2; raise ValueError when the radius is below half the
distance between the points; derive the span from the sagitta formula
(raising ZeroDivisionError when the radius is zero); generate the arc
and finally put_start_and_end_on(start, end), which (modelled from the
spec) places the first and last anchors exactly on the given points. -/
def ArcBetweenPoints_withRadius (p1 p2 : Pt) (r : ℝ) : Except ABPErr ABPState :=
  let sign : ℝ := if r < 0 then -2 else 2
  let radius : ℝ := if r < 0 then -r else r
  let halfdist : ℝ := get_norm (p1 - p2) / 2
  if radius < halfdist then Except.error ABPErr.invalid_radius
  else
    if radius = 0 then Except.error ABPErr.zero_division
    else
      let arc_height : ℝ := radius - Real.sqrt (radius ^ 2 - halfdist ^ 2)
      Except.ok
        { start_anchor := p1
          end_anchor := p2
          angle := Real.arccos ((radius - arc_height) / radius) * sign
          radius := radius }

/-! ### Arc center inference (claim C5) -/

/-- The first cubic segment of an arc path: points[0..3] of the source,
two anchors with their two handles. -/
structure ArcSeg where
  a1 : Pt
  h1 : Pt
  h2 : Pt
  a2 : Pt

/-- Modelled from the spec: utils.space_ops.rotate_vector by a quarter
turn about OUT (not under src/): (x, y) maps to (-y, x). -/
def rotate_quarter (v : Pt) : Pt := ⟨-v.y, v.x, v.z⟩

/-- Modelled from the spec: utils.space_ops.line_intersection (not under
src/): intersect two lines given by point pairs, working in the xy
plane; when the directions are parallel the intersection is undefined
and failure is reported (the source raises, which Arc.get_arc_center
catches). -/
def line_intersection (l1 l2 : Pt × Pt) : Option Pt :=
  let p := l1.1
  let d := l1.2 - l1.1
  let q := l2.1
  let e := l2.2 - l2.1
  let det := d.x * e.y - d.y * e.x
  if det = 0 then none
  else
    let t := ((q.x - p.x) * e.y - (q.y - p.y) * e.x) / det
    some ⟨p.x + t * d.x, p.y + t * d.y, 0⟩

/-- Arc.get_arc_center (src lines 245-264): intersect the normals to the
first two anchors; on failure warn, set the _failed_to_get_center flag
(the Boolean in the returned pair) and return ORIGIN instead of
raising. -/
def get_arc_center (s : ArcSeg) : Pt × Bool :=
  let t1 := s.h1 - s.a1
  let t2 := s.h2 - s.a2
  let n1 := rotate_quarter t1
  let n2 := rotate_quarter t2
  match line_intersection (s.a1, s.a1 + n1) (s.a2, s.a2 + n2) with
  | some c => (c, false)
  | none => (ORIGIN, true)

/-- A radius value as ArcBetweenPoints records it: a finite real or the
Python math.inf sentinel. -/
inductive RadiusVal
  | fin (r : ℝ)
  | inf

/-- The radius recording step of ArcBetweenPoints.__attrs_post_init__
when no radius was given (src lines 305-310): infer the center of the
realized path; when inference succeeded take the distance from start to
that center, when it failed record the radius as infinite. -/
def abp_record_radius (start : Pt) (s : ArcSeg) : RadiusVal :=
  match get_arc_center s with
  | (c, false) => RadiusVal.fin (get_norm (start - c))
  | (_, true) => RadiusVal.inf

/-! ### Generated arc anchors (claim C10) -/

/-- The point cos(a) * RIGHT + sin(a) * UP of
Arc.set_pre_positioned_points. -/
def unit_circle_pt (a : ℝ) : Pt := ⟨Real.cos a, Real.sin a, 0⟩

/-- The quarter-turn-rotated anchor used as tangent vector in
Arc.set_pre_positioned_points: (x, y) maps to (-y, x). -/
def circle_tangent (a : ℝ) : Pt := ⟨-Real.sin a, Real.cos a, 0⟩

/-- Anchor i of the generated arc (src lines 213-243): the unit-circle
point at the i-th of the n angles evenly spaced from a to a + θ, scaled
by the radius about ORIGIN and shifted by the center. -/
def arc_anchor (c : Pt) (r a θ : ℝ) (n i : ℕ) : Pt :=
  c + r • unit_circle_pt (a + (i : ℝ) * (θ / ((n : ℝ) - 1)))

/-- The TipableVMobject state realized by Arc.generate_points: first and
last anchors from arc_anchor, terminal handles offset from the anchors
by dθ/3 along the tangents (src lines 220-243), no tips, and the default
tip configuration. -/
def arc_TV (c : Pt) (r a θ : ℝ) (n : ℕ) : TV :=
  { start_pt := arc_anchor c r a θ n 0
    end_pt := arc_anchor c r a θ n (n - 1)
    first_handle := c + r • (unit_circle_pt a + (θ / ((n : ℝ) - 1) / 3) • circle_tangent a)
    last_handle := c + r • (unit_circle_pt (a + θ) - (θ / ((n : ℝ) - 1) / 3) • circle_tangent (a + θ))
    tip := none
    start_tip := none
    children := []
    tip_length := DEFAULT_ARROW_TIP_LENGTH
    tipRatioMax := 0.25 }

/-- Modelled from the spec: the BezierPath arc-length measure (VMobject
get_arc_length, not under src/); for the generated circular arc of
radius r spanning angle θ it is r times the absolute span. -/
def arc_path_length (r θ : ℝ) : ℝ := r * |θ|

/-! ### Concrete inputs shared by several witnesses -/

/-- A bare straight line from the origin to (3, 0, 0): anchors at the
ends, handles at the thirds (set_points_as_corners), no tips, configured
tip_length 1 and ratio 1/4. -/
def lineA : TV :=
  ⟨⟨0, 0, 0⟩, ⟨3, 0, 0⟩, ⟨1, 0, 0⟩, ⟨2, 0, 0⟩, none, none, [], 1, 1 / 4⟩

/-- The tip created by add_tip on lineA with length 1: apex on the old
end anchor, base one unit back along the tangent. -/
def tipA : Tip := ⟨1, ⟨3, 0, 0⟩, ⟨2, 0, 0⟩⟩

/-- An arrow-like state as add_tip leaves lineA: body ends on the tip
base, the tip attached as child. -/
def arrowA : TV :=
  ⟨⟨0, 0, 0⟩, ⟨2, 0, 0⟩, ⟨1, 0, 0⟩, ⟨2, 0, 0⟩, some tipA, none, [tipA], 1, 1 / 4⟩

/-! ## Basic lemmas about points and norms -/

@[simp]
lemma Pt.add_def (a b c d e f : ℝ) :
    (Pt.mk a b c) + (Pt.mk d e f) = Pt.mk (a + d) (b + e) (c + f) := rfl

@[simp]
lemma Pt.sub_def (a b c d e f : ℝ) :
    (Pt.mk a b c) - (Pt.mk d e f) = Pt.mk (a - d) (b - e) (c - f) := rfl

@[simp]
lemma Pt.smul_def (k a b c : ℝ) :
    k • (Pt.mk a b c) = Pt.mk (k * a) (k * b) (k * c) := rfl

@[simp]
lemma Pt.add_x (p q : Pt) : (p + q).x = p.x + q.x := rfl

@[simp]
lemma Pt.add_y (p q : Pt) : (p + q).y = p.y + q.y := rfl

@[simp]
lemma Pt.add_z (p q : Pt) : (p + q).z = p.z + q.z := rfl

@[simp]
lemma Pt.sub_x (p q : Pt) : (p - q).x = p.x - q.x := rfl

@[simp]
lemma Pt.sub_y (p q : Pt) : (p - q).y = p.y - q.y := rfl

@[simp]
lemma Pt.sub_z (p q : Pt) : (p - q).z = p.z - q.z := rfl

@[simp]
lemma Pt.smul_x (k : ℝ) (p : Pt) : (k • p).x = k * p.x := rfl

@[simp]
lemma Pt.smul_y (k : ℝ) (p : Pt) : (k • p).y = k * p.y := rfl

@[simp]
lemma Pt.smul_z (k : ℝ) (p : Pt) : (k • p).z = k * p.z := rfl

lemma get_norm_nonneg (p : Pt) : 0 ≤ get_norm p := Real.sqrt_nonneg _

/-- Evaluation of Real.sqrt at a numeral via an explicit square root. -/
lemma sqrt_eval {a b : ℝ} (hb : 0 ≤ b) (h : b ^ 2 = a) : Real.sqrt a = b := by
  rw [← h, Real.sqrt_sq hb]

@[simp]
lemma get_norm_xaxis (c : ℝ) : get_norm ⟨c, 0, 0⟩ = |c| := by
  unfold get_norm
  simp [Real.sqrt_sq_eq_abs]

lemma get_norm_smul (k : ℝ) (p : Pt) : get_norm (k • p) = |k| * get_norm p := by
  unfold get_norm
  rw [show (k • p).x ^ 2 + (k • p).y ^ 2 + (k • p).z ^ 2
      = k ^ 2 * (p.x ^ 2 + p.y ^ 2 + p.z ^ 2) from by
    simp only [Pt.smul_x, Pt.smul_y, Pt.smul_z]; ring]
  rw [Real.sqrt_mul (sq_nonneg k), Real.sqrt_sq_eq_abs]

lemma get_norm_eq_zero_iff (p : Pt) : get_norm p = 0 ↔ p = ORIGIN := by
  constructor
  · intro h
    have h0 : p.x ^ 2 + p.y ^ 2 + p.z ^ 2 ≤ 0 := Real.sqrt_eq_zero'.mp h
    have hx : p.x = 0 := by nlinarith [sq_nonneg p.x, sq_nonneg p.y, sq_nonneg p.z]
    have hy : p.y = 0 := by nlinarith [sq_nonneg p.x, sq_nonneg p.y, sq_nonneg p.z]
    have hz : p.z = 0 := by nlinarith [sq_nonneg p.x, sq_nonneg p.y, sq_nonneg p.z]
    cases p
    simp_all [ORIGIN]
  · intro h
    subst h
    simp [ORIGIN]

lemma get_norm_pos_of_ne (p : Pt) (h : p ≠ ORIGIN) : 0 < get_norm p :=
  lt_of_le_of_ne (get_norm_nonneg p)
    (fun h0 => h ((get_norm_eq_zero_iff p).mp h0.symm))

lemma normalize_vec_norm (p : Pt) (h : p ≠ ORIGIN) :
    get_norm (normalize_vec p) = 1 := by
  have hpos : 0 < get_norm p := get_norm_pos_of_ne p h
  unfold normalize_vec
  rw [if_pos hpos, get_norm_smul, abs_of_pos (by positivity)]
  field_simp

lemma Pt.affine_sub (c p q : Pt) (k : ℝ) :
    (c + k • (p - c)) - (c + k • (q - c)) = k • (p - q) := by
  ext <;> simp <;> ring

lemma Pt.sub_ne_origin (p q : Pt) (h : p ≠ q) : p - q ≠ ORIGIN := by
  intro h0
  apply h
  have hx := congrArg Pt.x h0
  have hy := congrArg Pt.y h0
  have hz := congrArg Pt.z h0
  simp only [Pt.sub_x, Pt.sub_y, Pt.sub_z, ORIGIN] at hx hy hz
  ext
  · linarith
  · linarith
  · linarith

lemma Pt.smul_eq_origin (k : ℝ) (p : Pt) (hk : k ≠ 0) (h : k • p = ORIGIN) :
    p = ORIGIN := by
  have hx := congrArg Pt.x h
  have hy := congrArg Pt.y h
  have hz := congrArg Pt.z h
  simp only [Pt.smul_x, Pt.smul_y, Pt.smul_z, ORIGIN] at hx hy hz
  ext
  · simpa [ORIGIN] using (mul_eq_zero.mp hx).resolve_left hk
  · simpa [ORIGIN] using (mul_eq_zero.mp hy).resolve_left hk
  · simpa [ORIGIN] using (mul_eq_zero.mp hz).resolve_left hk

lemma Pt.affine_ne (c p q : Pt) (k : ℝ) (hk : k ≠ 0) (h : p ≠ q) :
    c + k • (p - c) ≠ c + k • (q - c) := by
  intro he
  have h2 : k • (p - q) = ORIGIN := by
    rw [← Pt.affine_sub c p q k, he]
    ext <;> simp [ORIGIN]
  exact Pt.sub_ne_origin p q h (Pt.smul_eq_origin k (p - q) hk h2)

/-- The arc-length measure of a straight Line body coincides with its
chord length. -/
lemma LineS.arc_len_eq (L : LineS) : L.get_arc_length = L.get_length := rfl

/-! ## Claim C9: Line((0,0),(4,0)) then set_length(2) gives (1,0) and (3,0) -/

/-- Claim C9: constructing a straight Line from (0,0) to (4,0) and
calling set_length(2) yields the line with endpoints exactly (1,0) and
(3,0): set_length scales by 2/4 about the center (2,0). -/
theorem c9_set_length_example :
    LineS.set_length (mkLine ⟨0, 0, 0⟩ ⟨4, 0, 0⟩ 0) 2
      = ⟨⟨1, 0, 0⟩, ⟨3, 0, 0⟩, 0⟩ := by
  have h1 : mkLine ⟨0, 0, 0⟩ ⟨4, 0, 0⟩ 0 = ⟨⟨0, 0, 0⟩, ⟨4, 0, 0⟩, 0⟩ := by
    unfold mkLine LineS.account_for_buff
    simp
  have h2 : LineS.get_length ⟨⟨0, 0, 0⟩, ⟨4, 0, 0⟩, 0⟩ = 4 := by
    unfold LineS.get_length
    rw [show ((⟨0, 0, 0⟩ : Pt) - ⟨4, 0, 0⟩) = (⟨-4, 0, 0⟩ : Pt) from by norm_num]
    rw [get_norm_xaxis]
    norm_num
  rw [h1]
  show LineS.scale ⟨⟨0, 0, 0⟩, ⟨4, 0, 0⟩, 0⟩
      (2 / LineS.get_length ⟨⟨0, 0, 0⟩, ⟨4, 0, 0⟩, 0⟩) = _
  rw [h2]
  unfold LineS.scale
  norm_num [LineS.mk.injEq, Pt.mk.injEq]

/-! ## Claim C4: account_for_buff no-op boundary

The claim states a no-op whenever buff = 0 or 2·buff ≥ length.  The code
only returns early when length < 2·buff (strict), so at 2·buff = length
it trims proportion 1/2 from each end, collapsing the curve to its
midpoint: the claim fails at that boundary. -/

/-- Counterexample to claim C4: the straight line from (0,0,0) to
(2,0,0) with buff = 1 satisfies 2·buff ≥ length, yet account_for_buff is
not a no-op (both endpoints move to the midpoint (1,0,0)). -/
theorem c4_counterexample :
    2 * (1 : ℝ) ≥ LineS.get_length ⟨⟨0, 0, 0⟩, ⟨2, 0, 0⟩, 1⟩
    ∧ LineS.account_for_buff ⟨⟨0, 0, 0⟩, ⟨2, 0, 0⟩, 1⟩
        ≠ ⟨⟨0, 0, 0⟩, ⟨2, 0, 0⟩, 1⟩ := by
  have hlen : LineS.get_length ⟨⟨0, 0, 0⟩, ⟨2, 0, 0⟩, 1⟩ = 2 := by
    unfold LineS.get_length
    rw [show ((⟨0, 0, 0⟩ : Pt) - ⟨2, 0, 0⟩) = (⟨-2, 0, 0⟩ : Pt) from by norm_num]
    rw [get_norm_xaxis]
    norm_num
  constructor
  · rw [hlen]; norm_num
  · have hval : LineS.account_for_buff ⟨⟨0, 0, 0⟩, ⟨2, 0, 0⟩, 1⟩
        = ⟨⟨1, 0, 0⟩, ⟨1, 0, 0⟩, 1⟩ := by
      unfold LineS.account_for_buff
      rw [if_neg (by norm_num), if_neg (by rw [LineS.arc_len_eq, hlen]; norm_num)]
      unfold LineS.sub_segment interp
      rw [LineS.arc_len_eq, hlen]
      norm_num [LineS.mk.injEq, Pt.mk.injEq]
    rw [hval]
    norm_num [LineS.mk.injEq, Pt.mk.injEq]

/-- Claim C4 as amended: account_for_buff is a no-op when buff = 0 or
when 2·buff is strictly greater than the length; when buff is nonzero
and 2·buff ≤ length it trims proportion buff/length from each end (at
2·buff = length this collapses the segment to its midpoint). -/
theorem c4_amended (L : LineS) :
    (L.buff = 0 → L.account_for_buff = L)
    ∧ (L.get_length < 2 * L.buff → L.account_for_buff = L)
    ∧ (L.buff ≠ 0 → 2 * L.buff ≤ L.get_length →
        (L.account_for_buff).start_pt
            = interp L.start_pt L.end_pt (L.buff / L.get_length)
          ∧ (L.account_for_buff).end_pt
            = interp L.start_pt L.end_pt (1 - L.buff / L.get_length)) := by
  refine ⟨?_, ?_, ?_⟩
  · intro h
    unfold LineS.account_for_buff
    rw [if_pos h]
  · intro h
    unfold LineS.account_for_buff
    by_cases hb : L.buff = 0
    · rw [if_pos hb]
    · rw [if_neg hb, if_pos (by rw [LineS.arc_len_eq]; exact h)]
  · intro h1 h2
    unfold LineS.account_for_buff
    rw [if_neg h1, if_neg (by rw [LineS.arc_len_eq]; exact not_lt.mpr h2)]
    unfold LineS.sub_segment
    rw [LineS.arc_len_eq]
    exact ⟨rfl, rfl⟩

/-- Witness for the amended claim C4 at concrete inputs: buff 0 is a
no-op on the line to (4,0,0); with buff 1 on the same line the endpoints
move to proportions 1/4 and 3/4. -/
theorem c4_amended_witness :
    LineS.account_for_buff ⟨⟨0, 0, 0⟩, ⟨4, 0, 0⟩, 0⟩ = ⟨⟨0, 0, 0⟩, ⟨4, 0, 0⟩, 0⟩
    ∧ (LineS.account_for_buff ⟨⟨0, 0, 0⟩, ⟨4, 0, 0⟩, 1⟩).start_pt
        = interp ⟨0, 0, 0⟩ ⟨4, 0, 0⟩ (1 / 4)
    ∧ (LineS.account_for_buff ⟨⟨0, 0, 0⟩, ⟨4, 0, 0⟩, 1⟩).end_pt
        = interp ⟨0, 0, 0⟩ ⟨4, 0, 0⟩ (1 - 1 / 4) := by
  have hlen : LineS.get_length ⟨⟨0, 0, 0⟩, ⟨4, 0, 0⟩, 1⟩ = 4 := by
    unfold LineS.get_length
    rw [show ((⟨0, 0, 0⟩ : Pt) - ⟨4, 0, 0⟩) = (⟨-4, 0, 0⟩ : Pt) from by norm_num]
    rw [get_norm_xaxis]
    norm_num
  have h := (c4_amended ⟨⟨0, 0, 0⟩, ⟨4, 0, 0⟩, 1⟩).2.2 (by norm_num)
    (by rw [hlen]; norm_num)
  refine ⟨(c4_amended ⟨⟨0, 0, 0⟩, ⟨4, 0, 0⟩, 0⟩).1 rfl, ?_, ?_⟩
  · simpa [hlen] using h.1
  · simpa [hlen] using h.2

/-! ## Claim C1: ArcBetweenPoints with an explicit radius

The sub-half-chord case does raise the ValueError, and the successful
case does pin the anchors to p1 and p2.  But the success half of the
claim fails in one corner: radius 0 with coincident points passes the
halfdist guard and then divides by zero in the span formula. -/

lemma Pt.add_sub_cancel_left (p v : Pt) : (p + v) - p = v := by
  ext <;> simp

lemma if_neg_abs (r : ℝ) : (if r < 0 then -r else r) = |r| := by
  by_cases h : r < 0
  · rw [if_pos h, abs_of_neg h]
  · rw [if_neg h, abs_of_nonneg (not_lt.mp h)]

/-- Counterexample to claim C1: with p1 = p2 = ORIGIN and the explicit
radius 0, the absolute radius is at least half the (zero) distance
between the points, yet construction does not succeed: it raises the
ZeroDivisionError of the span formula rather than producing a path. -/
theorem c1_counterexample :
    get_norm ((ORIGIN : Pt) - ORIGIN) / 2 ≤ |(0 : ℝ)|
    ∧ ArcBetweenPoints_withRadius ORIGIN ORIGIN 0
        = Except.error ABPErr.zero_division := by
  have h0 : get_norm ((ORIGIN : Pt) - ORIGIN) = 0 := by
    rw [show (ORIGIN : Pt) - ORIGIN = (⟨0, 0, 0⟩ : Pt) from by norm_num [ORIGIN]]
    simp
  constructor
  · rw [h0]; norm_num
  · simp only [ArcBetweenPoints_withRadius, h0]
    norm_num

/-- Claim C1 as amended: with |r| smaller than half the distance between
the points, ArcBetweenPoints(p1, p2, radius = r) fails at construction
with the invalid-parameter ValueError; with |r| at least half that
distance and r nonzero it succeeds and its first and last anchors equal
p1 and p2 exactly (r = 0, possible only when p1 = p2, instead raises a
ZeroDivisionError). -/
theorem c1_amended (p1 p2 : Pt) (r : ℝ) :
    (|r| < get_norm (p1 - p2) / 2 →
        ArcBetweenPoints_withRadius p1 p2 r = Except.error ABPErr.invalid_radius)
    ∧ (get_norm (p1 - p2) / 2 ≤ |r| → r ≠ 0 →
        ∃ st, ArcBetweenPoints_withRadius p1 p2 r = Except.ok st
          ∧ st.start_anchor = p1 ∧ st.end_anchor = p2) := by
  constructor
  · intro h
    simp only [ArcBetweenPoints_withRadius, if_neg_abs]
    rw [if_pos h]
  · intro h hr
    simp only [ArcBetweenPoints_withRadius, if_neg_abs]
    rw [if_neg (not_lt.mpr h), if_neg (abs_ne_zero.mpr hr)]
    exact ⟨_, rfl, rfl, rfl⟩

/-- Witness for the amended claim C1: between (0,0,0) and (2,0,0), the
radius 1/2 is rejected with the invalid-parameter error and the radius 1
succeeds with anchors exactly on the two points. -/
theorem c1_amended_witness :
    ArcBetweenPoints_withRadius ⟨0, 0, 0⟩ ⟨2, 0, 0⟩ (1 / 2)
      = Except.error ABPErr.invalid_radius
    ∧ ∃ st, ArcBetweenPoints_withRadius ⟨0, 0, 0⟩ ⟨2, 0, 0⟩ 1 = Except.ok st
        ∧ st.start_anchor = ⟨0, 0, 0⟩ ∧ st.end_anchor = ⟨2, 0, 0⟩ := by
  have hn : get_norm ((⟨0, 0, 0⟩ : Pt) - ⟨2, 0, 0⟩) = 2 := by
    rw [show ((⟨0, 0, 0⟩ : Pt) - ⟨2, 0, 0⟩) = (⟨-2, 0, 0⟩ : Pt) from by norm_num]
    rw [get_norm_xaxis]
    norm_num
  exact ⟨(c1_amended ⟨0, 0, 0⟩ ⟨2, 0, 0⟩ (1 / 2)).1
      (by rw [hn, abs_of_pos (by norm_num : (0 : ℝ) < 1 / 2)]; norm_num),
    (c1_amended ⟨0, 0, 0⟩ ⟨2, 0, 0⟩ 1).2
      (by rw [hn, abs_of_pos (by norm_num : (0 : ℝ) < 1)]; norm_num) (by norm_num)⟩

/-! ## Claim C5: parallel normals in get_arc_center -/

/-- Claim C5: when the handle tangents of the first segment have
parallel normals (vanishing xy cross product, e.g. a straight segment
used as an arc), get_arc_center returns a value instead of raising: the
ORIGIN together with the raised failure flag; and the radius-recording
step of ArcBetweenPoints constructed by angle then records the radius as
infinite instead of measuring the distance to the arbitrary origin. -/
theorem c5_parallel_center (s : ArcSeg) (start : Pt)
    (hpar : (s.h1 - s.a1).x * (s.h2 - s.a2).y
        - (s.h1 - s.a1).y * (s.h2 - s.a2).x = 0) :
    get_arc_center s = (ORIGIN, true)
    ∧ abp_record_radius start s = RadiusVal.inf := by
  have hli : line_intersection (s.a1, s.a1 + rotate_quarter (s.h1 - s.a1))
      (s.a2, s.a2 + rotate_quarter (s.h2 - s.a2)) = none := by
    simp only [line_intersection, rotate_quarter, Pt.add_sub_cancel_left]
    split
    · rfl
    · next hne => exact absurd (by linear_combination hpar) hne
  have hcenter : get_arc_center s = (ORIGIN, true) := by
    simp only [get_arc_center, hli]
  refine ⟨hcenter, ?_⟩
  unfold abp_record_radius
  rw [hcenter]

/-- Witness for claim C5: a straight first segment along the x axis (the
realized path of a zero-angle ArcBetweenPoints) has parallel normals;
center inference reports failure with ORIGIN and the recorded radius is
infinite. -/
theorem c5_witness :
    get_arc_center ⟨⟨0, 0, 0⟩, ⟨1, 0, 0⟩, ⟨2, 0, 0⟩, ⟨3, 0, 0⟩⟩ = (ORIGIN, true)
    ∧ abp_record_radius ⟨5, 0, 0⟩ ⟨⟨0, 0, 0⟩, ⟨1, 0, 0⟩, ⟨2, 0, 0⟩, ⟨3, 0, 0⟩⟩
        = RadiusVal.inf :=
  c5_parallel_center ⟨⟨0, 0, 0⟩, ⟨1, 0, 0⟩, ⟨2, 0, 0⟩, ⟨3, 0, 0⟩⟩ ⟨5, 0, 0⟩
    (by norm_num)

/-! ## Claim C7: set_length on a zero-length Line is unguarded -/

/-- Claim C7 evaluated at the failing input: for the zero-length Line at
(1,0,0), set_length(2) computes the scale factor 2 / 0, which under the
IEEE semantics of the numpy floats is +inf rather than a raised error,
and the subsequent scaling of the coordinate produces NaN: the division
is not guarded, and NaN propagates into the geometry, contradicting the
claim that the code fails cleanly or no-ops. -/
theorem c7_zero_length_unguarded :
    LineS.get_length ⟨⟨1, 0, 0⟩, ⟨1, 0, 0⟩, 0⟩ = 0
    ∧ set_length_scale_factor 2 (LineS.get_length ⟨⟨1, 0, 0⟩, ⟨1, 0, 0⟩, 0⟩)
        = FloatV.inf
    ∧ scaled_coord 1 1
        (set_length_scale_factor 2 (LineS.get_length ⟨⟨1, 0, 0⟩, ⟨1, 0, 0⟩, 0⟩))
        = FloatV.nan := by
  have h0 : LineS.get_length ⟨⟨1, 0, 0⟩, ⟨1, 0, 0⟩, 0⟩ = 0 := by
    unfold LineS.get_length
    rw [show ((⟨1, 0, 0⟩ : Pt) - ⟨1, 0, 0⟩) = (⟨0, 0, 0⟩ : Pt) from by norm_num]
    simp
  refine ⟨h0, ?_, ?_⟩
  · rw [h0]
    unfold set_length_scale_factor FloatV.div
    norm_num
  · rw [h0]
    unfold scaled_coord set_length_scale_factor FloatV.div FloatV.mul FloatV.add
    norm_num

/-! ## Lemmas about the TipableVMobject state -/

@[simp]
lemma decide_self_eq_true (t : Tip) : decide (t = t) = true := by simp

lemma TV.get_start_of_none (s : TV) (h : s.start_tip = none) :
    s.get_start = s.start_pt := by
  unfold TV.get_start
  rw [h]

lemma TV.get_start_of_mem (s : TV) (t : Tip) (h : s.start_tip = some t)
    (hm : t ∈ s.children) : s.get_start = t.apex := by
  unfold TV.get_start
  rw [h]
  simp [hm]

lemma TV.get_start_of_not_mem (s : TV) (t : Tip) (h : s.start_tip = some t)
    (hm : t ∉ s.children) : s.get_start = s.start_pt := by
  unfold TV.get_start
  rw [h]
  simp [hm]

lemma TV.get_end_of_none (s : TV) (h : s.tip = none) : s.get_end = s.end_pt := by
  unfold TV.get_end
  rw [h]

lemma TV.get_end_of_mem (s : TV) (t : Tip) (h : s.tip = some t)
    (hm : t ∈ s.children) : s.get_end = t.apex := by
  unfold TV.get_end
  rw [h]
  simp [hm]

lemma TV.get_end_of_not_mem (s : TV) (t : Tip) (h : s.tip = some t)
    (hm : t ∉ s.children) : s.get_end = s.end_pt := by
  unfold TV.get_end
  rw [h]
  simp [hm]

lemma TV.get_length_bare (s : TV) (ht : s.tip = none) (hst : s.start_tip = none) :
    s.get_length = get_norm (s.start_pt - s.end_pt) := by
  unfold TV.get_length TV.get_start_and_end
  rw [TV.get_start_of_none s hst, TV.get_end_of_none s ht]

lemma TV.has_tip_intro (s : TV) (t : Tip) (h : s.tip = some t)
    (hm : t ∈ s.children) : s.has_tip := ⟨t, h, hm⟩

lemma TV.not_has_tip_of_none (s : TV) (h : s.tip = none) : ¬s.has_tip := by
  rintro ⟨t, ht, -⟩
  rw [h] at ht
  cases ht

lemma TV.not_has_tip_of_not_mem (s : TV) (t : Tip) (h : s.tip = some t)
    (hm : t ∉ s.children) : ¬s.has_tip := by
  rintro ⟨u, hu, hmu⟩
  rw [h] at hu
  injection hu with he
  exact hm (he ▸ hmu)

lemma TV.has_start_tip_intro (s : TV) (t : Tip) (h : s.start_tip = some t)
    (hm : t ∈ s.children) : s.has_start_tip := ⟨t, h, hm⟩

lemma TV.not_has_start_tip_of_none (s : TV) (h : s.start_tip = none) :
    ¬s.has_start_tip := by
  rintro ⟨t, ht, -⟩
  rw [h] at ht
  cases ht

lemma TV.not_has_start_tip_of_not_mem (s : TV) (t : Tip) (h : s.start_tip = some t)
    (hm : t ∉ s.children) : ¬s.has_start_tip := by
  rintro ⟨u, hu, hmu⟩
  rw [h] at hu
  injection hu with he
  exact hm (he ▸ hmu)

/-! ## Claim C2: add_tip then pop_tips restores the endpoints -/

/-- Claim C2: for every tipable curve with nonzero length and no tips
yet attached, attaching a tip at either end (any explicit or default tip
length, any dispatched default-length policy) and then detaching all
tips restores the original start and end points exactly. -/
theorem c2_tip_roundtrip (s : TV) (dflt : TV → ℝ) (tl : Option ℝ) (at_start : Bool)
    (ht : s.tip = none) (hst : s.start_tip = none) (hc : s.children = [])
    (hL : s.get_length ≠ 0) :
    ((TV.add_tip dflt s tl at_start).pop_tips).1.get_start_and_end
      = s.get_start_and_end := by
  obtain ⟨sp, ep, fh, lh, tp, st, ch, cfg, rm⟩ := s
  simp only at ht hst hc
  subst ht hst hc
  cases at_start
  · simp only [TV.get_length, TV.get_start_and_end, TV.get_start, TV.get_end] at hL
    simp [TV.add_tip, TV.create_tip, TV.reset_endpoints_based_on_tip,
      TV.asign_tip_attr, TV.add_child, TV.put_start_and_end_on, TV.pop_tips,
      TV.remove_child, TV.get_start_and_end, TV.get_start, TV.get_end,
      TV.has_tip, TV.has_start_tip, TV.get_first_handle, TV.get_last_handle,
      TV.get_length, hL, List.eraseP]
  · simp only [TV.get_length, TV.get_start_and_end, TV.get_start, TV.get_end] at hL
    simp [TV.add_tip, TV.create_tip, TV.reset_endpoints_based_on_tip,
      TV.asign_tip_attr, TV.add_child, TV.put_start_and_end_on, TV.pop_tips,
      TV.remove_child, TV.get_start_and_end, TV.get_start, TV.get_end,
      TV.has_tip, TV.has_start_tip, TV.get_first_handle, TV.get_last_handle,
      TV.get_length, hL, List.eraseP]

/-- Witness for claim C2: the bare line from (0,0,0) to (3,0,0) gets a
tip of length 1 at the end; popping the tips restores the endpoints. -/
theorem c2_witness :
    ((TV.add_tip TV.get_default_tip_length lineA (some 1) false).pop_tips).1.get_start_and_end
      = lineA.get_start_and_end := by
  have hL : lineA.get_length ≠ 0 := by
    rw [TV.get_length_bare lineA rfl rfl]
    rw [show lineA.start_pt - lineA.end_pt = (⟨-3, 0, 0⟩ : Pt) from by
      unfold lineA; norm_num]
    rw [get_norm_xaxis]
    norm_num
  exact c2_tip_roundtrip lineA TV.get_default_tip_length (some 1) false rfl rfl rfl hL

/-! ## Claim C6: a second tip replaces the attribute but the old tip is
not discarded from the children

asign_tip_attr overwrites the tip (or start_tip) attribute, but add_tip
never removes the previously attached tip from the children: after a
second add_tip at the same end both tips are children. -/

lemma TV.reset_children (s : TV) (t : Tip) (b : Bool) :
    (s.reset_endpoints_based_on_tip t b).children = s.children := by
  unfold TV.reset_endpoints_based_on_tip TV.put_start_and_end_on
  split
  · rfl
  · split <;> rfl

/-- Counterexample to claim C6: on the bare line to (3,0,0), add_tip
with length 1 attaches the tip (1, apex (3,0,0), base (2,0,0)); a second
add_tip at the same end with length 1/2 records the new tip as the tip
attribute, but the first tip is still among the children: it is not
discarded. -/
theorem c6_counterexample :
    (TV.add_tip TV.get_default_tip_length
        (TV.add_tip TV.get_default_tip_length lineA (some 1) false)
        (some (1 / 2)) false).tip
      = some ⟨1 / 2, ⟨3, 0, 0⟩, ⟨5 / 2, 0, 0⟩⟩
    ∧ tipA ∈ (TV.add_tip TV.get_default_tip_length
        (TV.add_tip TV.get_default_tip_length lineA (some 1) false)
        (some (1 / 2)) false).children
    ∧ tipA ≠ ⟨1 / 2, ⟨3, 0, 0⟩, ⟨5 / 2, 0, 0⟩⟩ := by
  have hnv : normalize_vec (⟨-1, 0, 0⟩ : Pt) = ⟨-1, 0, 0⟩ := by
    unfold normalize_vec
    rw [get_norm_xaxis, show |(-1 : ℝ)| = 1 from by rw [abs_neg, abs_one]]
    rw [if_pos one_pos]
    norm_num [Pt.mk.injEq]
  have hL : ¬get_norm ((⟨0, 0, 0⟩ : Pt) - ⟨3, 0, 0⟩) = 0 := by
    rw [show ((⟨0, 0, 0⟩ : Pt) - ⟨3, 0, 0⟩) = (⟨-3, 0, 0⟩ : Pt) from by norm_num]
    rw [get_norm_xaxis]
    norm_num
  have h1 : TV.add_tip TV.get_default_tip_length lineA (some 1) false = arrowA := by
    unfold lineA arrowA tipA
    norm_num [TV.add_tip, TV.create_tip, TV.reset_endpoints_based_on_tip,
      TV.asign_tip_attr, TV.add_child, TV.put_start_and_end_on, TV.get_start,
      TV.get_end, TV.get_length, TV.get_start_and_end, TV.get_first_handle,
      TV.get_last_handle, hnv, hL, TV.mk.injEq, Tip.mk.injEq, Pt.mk.injEq]
  rw [h1]
  have h2 : TV.add_tip TV.get_default_tip_length arrowA (some (1 / 2)) false
      = ⟨⟨0, 0, 0⟩, ⟨5 / 2, 0, 0⟩, ⟨1, 0, 0⟩, ⟨2, 0, 0⟩,
          some ⟨1 / 2, ⟨3, 0, 0⟩, ⟨5 / 2, 0, 0⟩⟩, none,
          [tipA, ⟨1 / 2, ⟨3, 0, 0⟩, ⟨5 / 2, 0, 0⟩⟩], 1, 1 / 4⟩ := by
    unfold arrowA tipA
    norm_num [TV.add_tip, TV.create_tip, TV.reset_endpoints_based_on_tip,
      TV.asign_tip_attr, TV.add_child, TV.put_start_and_end_on, TV.get_start,
      TV.get_end, TV.get_length, TV.get_start_and_end, TV.get_first_handle,
      TV.get_last_handle, hnv, hL, TV.mk.injEq, Tip.mk.injEq, Pt.mk.injEq]
  rw [h2]
  refine ⟨rfl, by simp, ?_⟩
  unfold tipA
  norm_num [Tip.mk.injEq]

/-- Claim C6 as amended: at most one tip attribute exists per end, and
attaching a second tip at the same end replaces the previously attached
tip as the recorded tip attribute; but the replaced tip is not discarded
from the children: after the second add_tip both tips are children. -/
theorem c6_amended (s : TV) (dflt : TV → ℝ) (tl1 tl2 : Option ℝ) :
    ∃ t1 t2,
      (TV.add_tip dflt s tl1 false).tip = some t1
      ∧ (TV.add_tip dflt (TV.add_tip dflt s tl1 false) tl2 false).tip = some t2
      ∧ (TV.add_tip dflt (TV.add_tip dflt s tl1 false) tl2 false).children
          = s.children ++ [t1, t2] := by
  refine ⟨s.create_tip (tl1.getD (dflt s)) false,
    (TV.add_tip dflt s tl1 false).create_tip
      (tl2.getD (dflt (TV.add_tip dflt s tl1 false))) false, ?_, ?_, ?_⟩
  · simp [TV.add_tip, TV.add_child, TV.asign_tip_attr]
  · simp [TV.add_tip, TV.add_child, TV.asign_tip_attr]
  · simp [TV.add_tip, TV.add_child, TV.asign_tip_attr, TV.reset_children]

/-! ## Claim C8: get_tip raises only when no tip attribute was ever set

pop_tips removes the tips from the children but leaves the attributes
assigned, and get_tips reads the attributes (hasattr), so a curve whose
tips were all detached still answers get_tip with the stale tip. -/

/-- Counterexample to claim C8: after add_tip and pop_tips the curve has
no attached tip (both has_tip and has_start_tip are false), yet get_tip
does not raise: it returns the stale popped tip. -/
theorem c8_counterexample :
    ¬(TV.pop_tips arrowA).1.has_tip
    ∧ ¬(TV.pop_tips arrowA).1.has_start_tip
    ∧ (TV.pop_tips arrowA).1.get_tip = Except.ok tipA := by
  have hpop : (TV.pop_tips arrowA).1
      = ⟨⟨0, 0, 0⟩, ⟨3, 0, 0⟩, ⟨1, 0, 0⟩, ⟨2, 0, 0⟩, some tipA, none, [], 1, 1 / 4⟩ := by
    simp [TV.pop_tips, arrowA, tipA, TV.remove_child, TV.put_start_and_end_on,
      TV.get_start, TV.get_end, TV.has_tip, TV.has_start_tip, List.eraseP,
      TV.mk.injEq, Pt.mk.injEq]
  rw [hpop]
  exact ⟨TV.not_has_tip_of_not_mem _ tipA rfl (by simp),
    TV.not_has_start_tip_of_none _ rfl, rfl⟩

/-- Claim C8 as amended: get_tip raises the explicit tip-not-found error
exactly on curves where neither the tip nor the start_tip attribute was
ever recorded; when a tip attribute is recorded (attached or stale after
pop_tips) get_tip returns that tip instead of raising. -/
theorem c8_amended (s : TV) :
    (s.tip = none → s.start_tip = none →
        s.get_tip = Except.error GeomErr.tip_not_found)
    ∧ (∀ t, s.tip = some t → s.get_tip = Except.ok t) := by
  constructor
  · intro h1 h2
    simp [TV.get_tip, TV.get_tips, h1, h2]
  · intro t h
    simp [TV.get_tip, TV.get_tips, h]

/-- Witness for the amended claim C8: the bare line raises the
tip-not-found error; the tipped state returns its tip. -/
theorem c8_amended_witness :
    lineA.get_tip = Except.error GeomErr.tip_not_found
    ∧ arrowA.get_tip = Except.ok tipA :=
  ⟨(c8_amended lineA).1 rfl rfl, (c8_amended arrowA).2 tipA rfl⟩

/-! ## Claim C3: Arrow tip length policy under scaling -/

lemma TV.get_length_nonneg (s : TV) : 0 ≤ s.get_length := get_norm_nonneg _

lemma TV.pop_tips_end_only (s : TV) (t : Tip) (ht : s.tip = some t)
    (hs : s.start_tip = none) (hc : s.children = [t]) :
    s.pop_tips = ({ s with end_pt := t.apex, children := [] }, [t]) := by
  obtain ⟨sp, ep, fh, lh, tp, st, ch, cfg, rm⟩ := s
  simp only at ht hs hc
  subst ht hs hc
  simp [TV.pop_tips, TV.remove_child, TV.put_start_and_end_on, TV.get_start,
    TV.get_end, TV.has_tip, TV.has_start_tip, List.eraseP]

lemma TV.get_length_not_attached (s : TV)
    (h1 : ∀ u, s.tip = some u → u ∉ s.children)
    (h2 : ∀ u, s.start_tip = some u → u ∉ s.children) :
    s.get_length = get_norm (s.start_pt - s.end_pt) := by
  have e1 : s.get_start = s.start_pt := by
    cases hst : s.start_tip with
    | none => exact TV.get_start_of_none s hst
    | some u => exact TV.get_start_of_not_mem s u hst (h2 u hst)
  have e2 : s.get_end = s.end_pt := by
    cases htp : s.tip with
    | none => exact TV.get_end_of_none s htp
    | some u => exact TV.get_end_of_not_mem s u htp (h1 u htp)
  unfold TV.get_length TV.get_start_and_end
  rw [e1, e2]

lemma TV.get_length_scale_of_not_attached (s : TV) (k : ℝ)
    (h1 : ∀ u, s.tip = some u → u ∉ s.children)
    (h2 : ∀ u, s.start_tip = some u → u ∉ s.children) :
    (s.scale_points k).get_length = |k| * s.get_length := by
  rw [TV.get_length_not_attached (s.scale_points k) h1 h2]
  rw [show (s.scale_points k).start_pt - (s.scale_points k).end_pt
      = k • (s.start_pt - s.end_pt) from
    Pt.affine_sub s.bbox_center s.start_pt s.end_pt k]
  rw [get_norm_smul, TV.get_length_not_attached s h1 h2]

lemma TV.scale_points_get_end (s : TV) (k : ℝ)
    (h1 : ∀ u, s.tip = some u → u ∉ s.children) :
    (s.scale_points k).get_end = s.bbox_center + k • (s.end_pt - s.bbox_center) := by
  cases htp : s.tip with
  | none =>
      rw [TV.get_end_of_none _ (show (s.scale_points k).tip = none from htp)]
      rfl
  | some u =>
      rw [TV.get_end_of_not_mem _ u (show (s.scale_points k).tip = some u from htp)
        (show u ∉ (s.scale_points k).children from h1 u htp)]
      rfl

/-- Claim C3: for every arrow state carrying one end tip, the tip length
used when the tip is recreated inside Arrow.scale (pop_tips, scale the
bare body by k, add_tip with the dispatched Arrow.get_default_tip_length)
equals min(configured tip_length, max ratio times k times the current
length); the recreated tip geometry realizes exactly that length; and in
particular scaling past the threshold where the capped value reaches the
configured length yields a tip of exactly the configured length, while
below it the tip is proportional to the new length. -/
theorem c3_scale_tip_policy (s : TV) (t : Tip) (k : ℝ)
    (ht : s.tip = some t) (hs : s.start_tip = none) (hc : s.children = [t])
    (hk : 0 < k) (hL : s.get_length ≠ 0) (hh : s.last_handle ≠ s.get_end)
    (hcfg : 0 ≤ s.tip_length) (hrm : 0 ≤ s.tipRatioMax) :
    Arrow.recreated_tip_len s k
        = min s.tip_length (s.tipRatioMax * (k * s.get_length))
    ∧ (∃ tf, (Arrow.scale s k).tip = some tf
        ∧ get_norm (tf.apex - tf.base) = Arrow.recreated_tip_len s k)
    ∧ (s.tip_length ≤ s.tipRatioMax * (k * s.get_length) →
        Arrow.recreated_tip_len s k = s.tip_length)
    ∧ (s.tipRatioMax * (k * s.get_length) ≤ s.tip_length →
        Arrow.recreated_tip_len s k = s.tipRatioMax * (k * s.get_length)) := by
  have hmem : t ∈ s.children := by rw [hc]; simp
  have hpop := TV.pop_tips_end_only s t ht hs hc
  have hR1 : ∀ u, ({ s with end_pt := t.apex, children := ([] : List Tip) }).tip
      = some u → u ∉ ({ s with end_pt := t.apex, children := ([] : List Tip) }).children := by
    intro u _
    simp
  have hR2 : ∀ u, ({ s with end_pt := t.apex, children := ([] : List Tip) }).start_tip
      = some u → u ∉ ({ s with end_pt := t.apex, children := ([] : List Tip) }).children := by
    intro u _
    simp
  have hslen : s.get_length = get_norm (s.start_pt - t.apex) := by
    unfold TV.get_length TV.get_start_and_end
    rw [TV.get_start_of_none s hs, TV.get_end_of_mem s t ht hmem]
  have hRlen : ({ s with end_pt := t.apex, children := ([] : List Tip) } : TV).get_length
      = s.get_length := by
    rw [TV.get_length_not_attached _ hR1 hR2, hslen]
  have hs2len : (({ s with end_pt := t.apex, children := ([] : List Tip) } : TV).scale_points k).get_length
      = k * s.get_length := by
    rw [TV.get_length_scale_of_not_attached _ k hR1 hR2, hRlen, abs_of_pos hk]
  have hmain : Arrow.recreated_tip_len s k
      = min s.tip_length (s.tipRatioMax * (k * s.get_length)) := by
    unfold Arrow.recreated_tip_len Arrow.get_default_tip_length
    rw [hpop]
    show min s.tip_length
        (s.tipRatioMax * (({ s with end_pt := t.apex, children := ([] : List Tip) } : TV).scale_points k).get_length) = _
    rw [hs2len]
  have hLnn : 0 ≤ Arrow.recreated_tip_len s k := by
    rw [hmain]
    exact le_min hcfg
      (mul_nonneg hrm (mul_nonneg hk.le (TV.get_length_nonneg s)))
  refine ⟨hmain, ?_, ?_, ?_⟩
  · -- evaluate Arrow.scale and measure the recreated tip
    have hhastip : s.has_tip := ⟨t, ht, hmem⟩
    have hnostart : ¬s.has_start_tip := TV.not_has_start_tip_of_none s hs
    have hw : (({ s with end_pt := t.apex, children := ([] : List Tip) } : TV).scale_points k).get_last_handle
        - (({ s with end_pt := t.apex, children := ([] : List Tip) } : TV).scale_points k).get_end
        ≠ ORIGIN := by
      rw [TV.scale_points_get_end _ k hR1]
      apply Pt.sub_ne_origin
      exact Pt.affine_ne _ _ _ k (ne_of_gt hk)
        (by rw [← TV.get_end_of_mem s t ht hmem]; exact hh)
    refine ⟨⟨t.len,
      ((({ s with end_pt := t.apex, children := ([] : List Tip) } : TV).scale_points k).create_tip
        (Arrow.get_default_tip_length
          (({ s with end_pt := t.apex, children := ([] : List Tip) } : TV).scale_points k)) false).apex,
      ((({ s with end_pt := t.apex, children := ([] : List Tip) } : TV).scale_points k).create_tip
        (Arrow.get_default_tip_length
          (({ s with end_pt := t.apex, children := ([] : List Tip) } : TV).scale_points k)) false).base⟩,
      ?_, ?_⟩
    · simp only [Arrow.scale, hpop, if_neg hL, if_pos (Or.inl hhastip),
        if_pos hhastip, if_neg hnostart]
      simp [TV.add_tip, TV.add_child, TV.asign_tip_attr, copy_pts]
    · have hvec : ∀ (m : TV) (L : ℝ),
          (m.create_tip L false).apex - (m.create_tip L false).base
            = (-L) • normalize_vec (m.get_last_handle - m.get_end) := by
        intro m L
        unfold TV.create_tip
        ext <;> simp
      dsimp only
      rw [hvec]
      rw [get_norm_smul, normalize_vec_norm _ hw, mul_one, abs_neg]
      rw [show Arrow.get_default_tip_length
          (({ s with end_pt := t.apex, children := ([] : List Tip) } : TV).scale_points k)
          = Arrow.recreated_tip_len s k from by
        unfold Arrow.recreated_tip_len
        rw [hpop]]
      exact abs_of_nonneg hLnn
  · intro h
    rw [hmain]
    exact min_eq_left h
  · intro h
    rw [hmain]
    exact min_eq_right h

/-- Witness for claim C3 at the concrete arrow state: one attached end
tip, configured tip_length 1, ratio 1/4, current length 3, scaled by
k = 2. -/
theorem c3_witness :
    Arrow.recreated_tip_len arrowA 2
        = min arrowA.tip_length (arrowA.tipRatioMax * (2 * arrowA.get_length))
    ∧ (∃ tf, (Arrow.scale arrowA 2).tip = some tf
        ∧ get_norm (tf.apex - tf.base) = Arrow.recreated_tip_len arrowA 2)
    ∧ (arrowA.tip_length ≤ arrowA.tipRatioMax * (2 * arrowA.get_length) →
        Arrow.recreated_tip_len arrowA 2 = arrowA.tip_length)
    ∧ (arrowA.tipRatioMax * (2 * arrowA.get_length) ≤ arrowA.tip_length →
        Arrow.recreated_tip_len arrowA 2 = arrowA.tipRatioMax * (2 * arrowA.get_length)) := by
  have hend : arrowA.get_end = ⟨3, 0, 0⟩ :=
    TV.get_end_of_mem arrowA tipA rfl (by show tipA ∈ [tipA]; simp)
  have harrlen : arrowA.get_length = 3 := by
    unfold TV.get_length TV.get_start_and_end
    rw [TV.get_start_of_none arrowA rfl, hend]
    rw [show arrowA.start_pt - (⟨3, 0, 0⟩ : Pt) = (⟨-3, 0, 0⟩ : Pt) from by
      unfold arrowA; norm_num]
    rw [get_norm_xaxis]
    norm_num
  exact c3_scale_tip_policy arrowA tipA 2 rfl rfl rfl (by norm_num)
    (by rw [harrlen]; norm_num)
    (by rw [hend]; unfold arrowA; norm_num [Pt.mk.injEq])
    (by unfold arrowA; norm_num)
    (by unfold arrowA; norm_num)

/-! ## Claim C10: get_length is the chord, strictly below the arc length -/

/-- Claim C10: get_length of a generated arc is the Euclidean distance
between its logical start and end points, the chord 2 r sin(span/2) --
not the arc length; for every curved arc (positive radius, span strictly
between 0 and a full turn) it is strictly smaller than the arc length
r times span. -/
theorem c10_chord_vs_arc (c : Pt) (r a θ : ℝ) (n : ℕ)
    (hn : 2 ≤ n) (hr : 0 < r) (hθ : 0 < θ) (hθ2 : θ < 2 * Real.pi) :
    (arc_TV c r a θ n).get_length = 2 * r * Real.sin (θ / 2)
    ∧ (arc_TV c r a θ n).get_length < arc_path_length r θ := by
  have hπ := Real.pi_pos
  have h1 : (arc_TV c r a θ n).get_length
      = get_norm (arc_anchor c r a θ n 0 - arc_anchor c r a θ n (n - 1)) := by
    rw [TV.get_length_bare _ rfl rfl]
    rfl
  have hn1 : 1 ≤ n := le_trans one_le_two hn
  have hcast : ((n - 1 : ℕ) : ℝ) = (n : ℝ) - 1 := by
    rw [Nat.cast_sub hn1, Nat.cast_one]
  have hne : ((n : ℝ) - 1) ≠ 0 := by
    have h2 : (2 : ℝ) ≤ (n : ℝ) := by exact_mod_cast hn
    intro h0
    linarith
  have hangle : a + ((n - 1 : ℕ) : ℝ) * (θ / ((n : ℝ) - 1)) = a + θ := by
    rw [hcast]
    field_simp
  have hdiff : arc_anchor c r a θ n 0 - arc_anchor c r a θ n (n - 1)
      = r • (unit_circle_pt a - unit_circle_pt (a + θ)) := by
    unfold arc_anchor
    rw [hangle]
    simp only [Nat.cast_zero, zero_mul, add_zero]
    ext <;> simp <;> ring
  have hcosdiff : Real.cos a * Real.cos (a + θ) + Real.sin a * Real.sin (a + θ)
      = Real.cos θ := by
    rw [← Real.cos_sub, show a - (a + θ) = -θ from by ring, Real.cos_neg]
  have hcosθ : Real.cos θ = Real.cos (θ / 2) ^ 2 - Real.sin (θ / 2) ^ 2 := by
    rw [show θ = 2 * (θ / 2) from by ring, Real.cos_two_mul']
    ring_nf
  have hsinpos : 0 ≤ Real.sin (θ / 2) :=
    Real.sin_nonneg_of_nonneg_of_le_pi (by linarith) (by linarith)
  have hnorm : get_norm (unit_circle_pt a - unit_circle_pt (a + θ))
      = 2 * Real.sin (θ / 2) := by
    unfold get_norm unit_circle_pt
    simp only [Pt.sub_def, Pt.mk.injEq]
    rw [show (Real.cos a - Real.cos (a + θ)) ^ 2
        + (Real.sin a - Real.sin (a + θ)) ^ 2 + ((0 : ℝ) - 0) ^ 2
        = (2 * Real.sin (θ / 2)) ^ 2 from by
      linear_combination Real.sin_sq_add_cos_sq a + Real.sin_sq_add_cos_sq (a + θ)
        - 2 * hcosdiff - 2 * hcosθ - 2 * Real.sin_sq_add_cos_sq (θ / 2)]
    exact Real.sqrt_sq (by linarith)
  have hchord : (arc_TV c r a θ n).get_length = 2 * r * Real.sin (θ / 2) := by
    rw [h1, hdiff, get_norm_smul, abs_of_pos hr, hnorm]
    ring
  refine ⟨hchord, ?_⟩
  rw [hchord, show arc_path_length r θ = r * θ from by
    unfold arc_path_length
    rw [abs_of_pos hθ]]
  have hs : Real.sin (θ / 2) < θ / 2 := Real.sin_lt (by linarith)
  nlinarith [hs, hr]

/-- Witness for claim C10: the half circle of radius 1 (span pi) from
angle 0, generated with 2 components, has chord length 2 sin(pi/2) = 2,
strictly below its arc length pi. -/
theorem c10_witness :
    (arc_TV ORIGIN 1 0 Real.pi 2).get_length = 2 * 1 * Real.sin (Real.pi / 2)
    ∧ (arc_TV ORIGIN 1 0 Real.pi 2).get_length < arc_path_length 1 Real.pi :=
  c10_chord_vs_arc ORIGIN 1 0 Real.pi 2 le_rfl one_pos Real.pi_pos
    (by linarith [Real.pi_pos])

end
